import Mathlib

/-!
Verification development for the LMDB-backed `Database` adapter
(`db/rocksdb/lmdb.rs`): the column-mapping and transaction-execution layer
over an embedded ordered key-value engine (`rkv`).

The adapter is embedded shallowly.  The engine itself is an external
collaborator; its visible state is a list of named substores, each an
association list from byte keys to typed values, and its operations are
modelled from the specification's description of the engine capability.
Failures of engine calls are injected through a `Faults` oracle so that the
adapter's error-propagation paths can be stated; `noFaults` is the healthy
engine.  Rust `unwrap()` on a failed result is modelled as the `panic`
outcome, distinct from a returned error.
-/

/-- Raw byte sequences (`&[u8]` / `Box<[u8]>` / `DBValue`). -/
abbrev Bytes := List Nat

/-- Name of a substore inside the environment: `none` is the unnamed default
substore, `some s` a named one. -/
abbrev StoreName := Option String

/-- Modelled from the spec: the engine's typed values.  The adapter only ever
writes `blob` values; other variants stand for data not written through this
adapter (a corruption condition for this layer). -/
inductive RkvValue : Type
  | blob (b : Bytes)
  | u64 (n : Nat)
deriving DecidableEq, Repr

/-- Modelled from the spec: decoding a typed value back into raw bytes
(`Value::to_bytes`).  It succeeds on blob values, which is all the adapter
writes, and may fail on anything else. -/
def RkvValue.toBytes : RkvValue → Option Bytes
  | .blob b => some b
  | .u64 _ => none

/-- Contents of one substore: keys paired with typed values, keys unique. -/
abbrev Store := List (Bytes × RkvValue)

/-- Visible state of one environment: its substores, by name. -/
abbrev Env := List (StoreName × Store)

/-- Result of an adapter call: a returned value, a returned error
(`io::Error`, carried as its message string), or a Rust panic from a bare
`unwrap()`. -/
inductive Outcome (α : Type) : Type
  | ok (a : α)
  | err (e : String)
  | panic
deriving DecidableEq, Repr

/-- Whether an outcome is a returned error result. -/
def Outcome.isErr {α : Type} : Outcome α → Bool
  | .err _ => true
  | _ => false

/-- Fault oracle for the engine: each field gives the error message an engine
call fails with, or `none` for success.  It makes engine failures explicit
inputs of the embedding. -/
structure Faults : Type where
  openStore : StoreName → Option String
  readerOpen : Option String
  readGet : StoreName → Bytes → Option String
  writerOpen : Option String
  put : StoreName → Bytes → Option String
  del : StoreName → Bytes → Option String
  commitFault : Option String
  iterStart : StoreName → Option String

/-- The healthy engine: no call fails. -/
def noFaults : Faults :=
  ⟨fun _ => none, none, fun _ _ => none, none, fun _ _ => none,
   fun _ _ => none, none, fun _ => none⟩

/-- Look a substore up by name. -/
def envLookup : Env → StoreName → Option Store
  | [], _ => none
  | (n, s) :: rest, n' => if n = n' then some s else envLookup rest n'

/-- Create the named substore, empty, if it is absent; otherwise leave the
environment unchanged. -/
def envEnsure (env : Env) (n : StoreName) : Env :=
  match envLookup env n with
  | some _ => env
  | none => env ++ [(n, [])]

/-- Rewrite the contents of the named substore in place. -/
def envModify : Env → StoreName → (Store → Store) → Env
  | [], _, _ => []
  | (n, s) :: rest, n', g =>
      if n = n' then (n, g s) :: rest else (n, s) :: envModify rest n' g

/-- Look a key up in one substore. -/
def storeGet : Store → Bytes → Option RkvValue
  | [], _ => none
  | (k, v) :: rest, k' => if k = k' then some v else storeGet rest k'

/-- Store a value under a key, overwriting an existing binding. -/
def storePut : Store → Bytes → RkvValue → Store
  | [], k', v' => [(k', v')]
  | (k, v) :: rest, k', v' =>
      if k = k' then (k', v') :: rest else (k, v) :: storePut rest k' v'

/-- Remove a key's binding; removing an absent key is a no-op. -/
def storeDel : Store → Bytes → Store
  | [], _ => []
  | (k, v) :: rest, k' =>
      if k = k' then storeDel rest k' else (k, v) :: storeDel rest k'

/-- Value stored under `key` in substore `n` of `env`, if any. -/
def storeGetIn (env : Env) (n : StoreName) (key : Bytes) : Option RkvValue :=
  (envLookup env n).bind fun s => storeGet s key

/-- Modelled from the spec: `Rkv::open_or_create` — return a handle to the
named substore, creating it (a persistent side effect) if absent; idempotent;
may fail with an engine error. -/
def Rkv.open_or_create (f : Faults) (env : Env) (name : StoreName) :
    Except String (StoreName × Env) :=
  match f.openStore name with
  | some e => .error e
  | none => .ok (name, envEnsure env name)

/-- Modelled from the spec: `Reader::get` — point lookup through a read
snapshot; absence is not an error; may fail with an engine error. -/
def Reader.get (f : Faults) (env : Env) (store : StoreName) (key : Bytes) :
    Except String (Option RkvValue) :=
  match f.readGet store key with
  | some e => .error e
  | none => .ok (storeGetIn env store key)

/-- Modelled from the spec: `Writer::put` — stage an overwriting insert in
the write transaction; may fail with an engine error. -/
def Writer.put (f : Faults) (env : Env) (store : StoreName) (key : Bytes)
    (v : RkvValue) : Except String Env :=
  match f.put store key with
  | some e => .error e
  | none => .ok (envModify env store fun s => storePut s key v)

/-- Modelled from the spec: `Writer::delete` — stage a removal; deleting an
absent key is not an error; may fail with an engine error. -/
def Writer.delete (f : Faults) (env : Env) (store : StoreName) (key : Bytes) :
    Except String Env :=
  match f.del store key with
  | some e => .error e
  | none => .ok (envModify env store fun s => storeDel s key)

/-- Modelled from the spec: `Writer::commit` — make the staged operation
durable; may fail with an engine error, in which case the staged changes are
discarded with the writer. -/
def Writer.commitRes (f : Faults) : Except String Unit :=
  match f.commitFault with
  | some e => .error e
  | none => .ok ()

/-- `Database::open_store`: map the optional column to a substore name —
`None` to the unnamed default substore, `Some(c)` to the substore named by
`c.to_string()` (decimal) — and open-or-create it. -/
def Database.open_store (f : Faults) (env : Env) (col : Option Nat) :
    Except String (StoreName × Env) :=
  match col with
  | none => Rkv.open_or_create f env none
  | some c => Rkv.open_or_create f env (some (Nat.repr c))

/-- The substore name `Database::open_store` resolves a column to. -/
def colName : Option Nat → StoreName
  | none => none
  | some c => some (Nat.repr c)

/-- A write operation of a `DBTransaction`. -/
inductive DBOp : Type
  | insert (col : Option Nat) (key : Bytes) (value : Bytes)
  | delete (col : Option Nat) (key : Bytes)
deriving DecidableEq, Repr

/-- One iteration of the loop body of `Database::write`: resolve the
substore (`?` propagates the error), acquire a writer (`unwrap()` panics on
failure), apply the put or delete (`?`), commit (`?`).  Returns the
environment as left by the attempt together with the outcome; on a put,
delete or commit failure the staged change is discarded but the substore
created by `open_store` persists. -/
def writeOp (f : Faults) (env : Env) : DBOp → Env × Outcome Unit
  | .insert col key value =>
    match Database.open_store f env col with
    | .error e => (env, .err e)
    | .ok (store, env1) =>
      match f.writerOpen with
      | some _ => (env1, .panic)
      | none =>
        match Writer.put f env1 store key (RkvValue.blob value) with
        | .error e => (env1, .err e)
        | .ok env2 =>
          match Writer.commitRes f with
          | .error e => (env1, .err e)
          | .ok _ => (env2, .ok ())
  | .delete col key =>
    match Database.open_store f env col with
    | .error e => (env, .err e)
    | .ok (store, env1) =>
      match f.writerOpen with
      | some _ => (env1, .panic)
      | none =>
        match Writer.delete f env1 store key with
        | .error e => (env1, .err e)
        | .ok env2 =>
          match Writer.commitRes f with
          | .error e => (env1, .err e)
          | .ok _ => (env2, .ok ())

/-- `Database::write`: apply the transaction's operations in order, one
commit per operation, stopping at the first failure and returning it. -/
def Database.write (f : Faults) (env : Env) : List DBOp → Env × Outcome Unit
  | [] => (env, .ok ())
  | op :: rest =>
    match writeOp f env op with
    | (env1, .ok _) => Database.write f env1 rest
    | (env1, .err e) => (env1, .err e)
    | (env1, .panic) => (env1, .panic)

/-- `Database::write_buffered`: call `write` and `unwrap()` the result, so
any failure becomes a panic. -/
def Database.write_buffered (f : Faults) (env : Env) (tr : List DBOp) :
    Outcome Env :=
  match Database.write f env tr with
  | (env1, .ok _) => .ok env1
  | (_, .err _) => .panic
  | (_, .panic) => .panic

/-- `Database::get`: resolve the substore (`?`), take a reader (`unwrap()`),
look the key up (`?`), and unwrap the typed blob back to bytes — the decode
uses a bare `unwrap()`, so a decode failure panics. -/
def Database.get (f : Faults) (env : Env) (col : Option Nat) (key : Bytes) :
    Outcome (Option Bytes) :=
  match Database.open_store f env col with
  | .error e => .err e
  | .ok (store, env1) =>
    match f.readerOpen with
    | some _ => .panic
    | none =>
      match Reader.get f env1 store key with
      | .error e => .err e
      | .ok none => .ok none
      | .ok (some v) =>
        match v.toBytes with
        | none => .panic
        | some b => .ok (some b)

/-- `Database::get_by_prefix`: an unimplemented stub — logs and returns
`None` without touching stored data. -/
def Database.get_by_prefix (_f : Faults) (_env : Env) (_col : Option Nat)
    (_pfx : Bytes) : Option Bytes :=
  none

/-- An entry yielded by the engine cursor: a key together with the engine's
fallible, optional value for it (`(key, Result<Option<Value>>)`). -/
abbrev IterEntry := Bytes × Except String (Option RkvValue)

/-- Modelled from the spec: `Reader::iter_start` — a cursor over the
substore's committed contents from the first key; the healthy engine yields
every entry with its value present and intact. -/
def Rkv.iter_start (f : Faults) (env : Env) (store : StoreName) :
    Except String (List IterEntry) :=
  match f.iterStart store with
  | some e => .error e
  | none =>
      .ok (((envLookup env store).getD []).map fun kv =>
        (kv.1, Except.ok (some kv.2)))

/-- `Database::iter`: resolve the substore and start a cursor, with every
failure hit by a bare `unwrap()` — so failures panic instead of being
returned. -/
def Database.iter (f : Faults) (env : Env) (col : Option Nat) :
    Outcome (List IterEntry) :=
  match Database.open_store f env col with
  | .error _ => .panic
  | .ok (store, env1) =>
    match f.readerOpen with
    | some _ => .panic
    | none =>
      match Rkv.iter_start f env1 store with
      | .error _ => .panic
      | .ok entries => .ok entries

/-- `Database::iter_from_prefix`: delegates to `iter`, ignoring the prefix
argument entirely. -/
def Database.iter_from_prefix (f : Faults) (env : Env) (col : Option Nat)
    (_pfx : Bytes) : Outcome (List IterEntry) :=
  Database.iter f env col

/-- `DatabaseIterator::next`: end of cursor ends the sequence; otherwise the
entry's value goes through `value.unwrap().unwrap().to_bytes().unwrap()`, so
an engine error, a missing value, or an undecodable value panics; a sound
entry is returned with its remaining cursor. -/
def DatabaseIterator.next :
    List IterEntry → Outcome (Option ((Bytes × Bytes) × List IterEntry))
  | [] => .ok none
  | (key, value) :: rest =>
    match value with
    | .error _ => .panic
    | .ok none => .panic
    | .ok (some v) =>
      match v.toBytes with
      | none => .panic
      | some b => .ok (some ((key, b), rest))

/-- Spec-side meaning of a decimal digit character. -/
def digitVal (c : Char) : Option Nat :=
  if 48 ≤ c.toNat ∧ c.toNat ≤ 57 then some (c.toNat - 48) else none

/-- Spec-side base-10 reading of a character list, left to right, on top of
an accumulated value. -/
def parseDecFrom (a : Nat) : List Char → Option Nat
  | [] => some a
  | c :: cs =>
    match digitVal c with
    | none => none
    | some d => parseDecFrom (10 * a + d) cs

/-- Spec-side base-10 reading of a string: `some n` exactly when the string
is all decimal digits denoting `n`. -/
def parseDecimal (s : String) : Option Nat :=
  parseDecFrom 0 s.data

/-! Helper lemmas about the engine state. -/

theorem envEnsure_lookup_self (env : Env) (n : StoreName) :
    envLookup (envEnsure env n) n = some ((envLookup env n).getD []) := by
  unfold envEnsure
  cases h : envLookup env n with
  | some s => simp [h]
  | none =>
    simp only [Option.getD_none]
    induction env with
    | nil => simp [envLookup]
    | cons hd tl ih =>
      obtain ⟨n', s'⟩ := hd
      by_cases hn : n' = n
      · subst hn; simp [envLookup] at h
      · simp only [envLookup, if_neg hn] at h
        simpa [envLookup, hn] using ih h

theorem envEnsure_lookup_ne (env : Env) (n n' : StoreName) (h : n' ≠ n) :
    envLookup (envEnsure env n) n' = envLookup env n' := by
  unfold envEnsure
  cases envLookup env n with
  | some s => rfl
  | none =>
    induction env with
    | nil => simp [envLookup, Ne.symm h]
    | cons hd tl ih =>
      obtain ⟨m, s'⟩ := hd
      by_cases hm : m = n'
      · simp [envLookup, hm]
      · simpa [envLookup, hm] using ih

theorem envModify_lookup_self (env : Env) (n : StoreName) (g : Store → Store) :
    envLookup (envModify env n g) n = (envLookup env n).map g := by
  induction env with
  | nil => simp [envModify, envLookup]
  | cons hd tl ih =>
    obtain ⟨m, s⟩ := hd
    by_cases hm : m = n
    · simp [envModify, envLookup, hm]
    · simpa [envModify, envLookup, hm] using ih

theorem envModify_lookup_ne (env : Env) (n n' : StoreName) (g : Store → Store)
    (h : n' ≠ n) : envLookup (envModify env n g) n' = envLookup env n' := by
  induction env with
  | nil => simp [envModify, envLookup]
  | cons hd tl ih =>
    obtain ⟨m, s⟩ := hd
    by_cases hm : m = n
    · subst hm
      simp [envModify, envLookup, Ne.symm h]
    · simp only [envModify, if_neg hm, envLookup]
      by_cases hm' : m = n'
      · simp [hm']
      · simp [hm', ih]

theorem storeGet_storePut_self (s : Store) (k : Bytes) (v : RkvValue) :
    storeGet (storePut s k v) k = some v := by
  induction s with
  | nil => simp [storePut, storeGet]
  | cons hd tl ih =>
    obtain ⟨k', v'⟩ := hd
    by_cases hk : k' = k
    · simp [storePut, storeGet, hk]
    · simpa [storePut, storeGet, hk] using ih

theorem storeGet_storeDel_self (s : Store) (k : Bytes) :
    storeGet (storeDel s k) k = none := by
  induction s with
  | nil => simp [storeDel, storeGet]
  | cons hd tl ih =>
    obtain ⟨k', v'⟩ := hd
    by_cases hk : k' = k
    · simpa [storeDel, hk] using ih
    · simpa [storeDel, storeGet, hk] using ih

theorem storeGetIn_envEnsure (env : Env) (n n' : StoreName) (k : Bytes) :
    storeGetIn (envEnsure env n) n' k = storeGetIn env n' k := by
  unfold storeGetIn
  by_cases h : n' = n
  · subst h
    rw [envEnsure_lookup_self]
    cases hl : envLookup env n' with
    | some s => simp [hl]
    | none => simp [hl, storeGet]
  · rw [envEnsure_lookup_ne env n n' h]

theorem open_store_eq (f : Faults) (env : Env) (col : Option Nat) :
    Database.open_store f env col = Rkv.open_or_create f env (colName col) := by
  cases col <;> rfl

theorem get_noFaults_eq (env : Env) (col : Option Nat) (key : Bytes) :
    Database.get noFaults env col key =
      match storeGetIn env (colName col) key with
      | none => Outcome.ok none
      | some v =>
        match v.toBytes with
        | none => Outcome.panic
        | some b => Outcome.ok (some b) := by
  unfold Database.get
  rw [open_store_eq]
  simp only [Rkv.open_or_create, noFaults, Reader.get, storeGetIn_envEnsure]
  cases storeGetIn env (colName col) key <;> rfl

theorem writeOp_noFaults_insert (env : Env) (col : Option Nat)
    (key value : Bytes) :
    writeOp noFaults env (.insert col key value) =
      (envModify (envEnsure env (colName col)) (colName col)
        (fun s => storePut s key (RkvValue.blob value)), Outcome.ok ()) := by
  cases col <;> rfl

theorem writeOp_noFaults_delete (env : Env) (col : Option Nat) (key : Bytes) :
    writeOp noFaults env (.delete col key) =
      (envModify (envEnsure env (colName col)) (colName col)
        (fun s => storeDel s key), Outcome.ok ()) := by
  cases col <;> rfl

theorem write_append (f : Faults) (pre rest : List DBOp) (env : Env)
    (h : (Database.write f env pre).2 = Outcome.ok ()) :
    Database.write f env (pre ++ rest) =
      Database.write f (Database.write f env pre).1 rest := by
  induction pre generalizing env with
  | nil => simp [Database.write]
  | cons op pre ih =>
    simp only [List.cons_append, Database.write]
    simp only [Database.write] at h
    cases hop : writeOp f env op with
    | mk env1 res =>
      rw [hop] at h
      cases res with
      | ok a =>
        cases a
        exact ih env1 h
      | err e => simp at h
      | panic => simp at h

theorem writeOp_err_storeGetIn (f : Faults) (env : Env) (op : DBOp)
    (e : String) (h : (writeOp f env op).2 = Outcome.err e) (n : StoreName)
    (k : Bytes) : storeGetIn (writeOp f env op).1 n k = storeGetIn env n k := by
  cases op with
  | insert col key value =>
    simp only [writeOp] at h ⊢
    rw [open_store_eq] at h ⊢
    unfold Rkv.open_or_create at h ⊢
    cases hos : f.openStore (colName col) with
    | some e0 => simp [hos]
    | none =>
      simp only [hos] at h ⊢
      cases hw : f.writerOpen with
      | some e1 => simp [hw] at h
      | none =>
        simp only [hw] at h ⊢
        unfold Writer.put at h ⊢
        cases hp : f.put (colName col) key with
        | some e2 => simp [hp, storeGetIn_envEnsure]
        | none =>
          simp only [hp] at h ⊢
          unfold Writer.commitRes at h ⊢
          cases hc : f.commitFault with
          | some e3 => simp [hc, storeGetIn_envEnsure]
          | none => simp [hc] at h
  | delete col key =>
    simp only [writeOp] at h ⊢
    rw [open_store_eq] at h ⊢
    unfold Rkv.open_or_create at h ⊢
    cases hos : f.openStore (colName col) with
    | some e0 => simp [hos]
    | none =>
      simp only [hos] at h ⊢
      cases hw : f.writerOpen with
      | some e1 => simp [hw] at h
      | none =>
        simp only [hw] at h ⊢
        unfold Writer.delete at h ⊢
        cases hp : f.del (colName col) key with
        | some e2 => simp [hp, storeGetIn_envEnsure]
        | none =>
          simp only [hp] at h ⊢
          unfold Writer.commitRes at h ⊢
          cases hc : f.commitFault with
          | some e3 => simp [hc, storeGetIn_envEnsure]
          | none => simp [hc] at h

theorem writeOp_err_get (f : Faults) (env : Env) (op : DBOp) (e : String)
    (h : (writeOp f env op).2 = Outcome.err e) (col : Option Nat)
    (key : Bytes) :
    Database.get noFaults (writeOp f env op).1 col key =
      Database.get noFaults env col key := by
  rw [get_noFaults_eq, get_noFaults_eq, writeOp_err_storeGetIn f env op e h]

/-! Correctness of the decimal substore name: `Nat.repr` renders exactly the
base-10 digits of the column number. -/

theorem toDigitsCore_shift (fuel : Nat) :
    ∀ (n : Nat) (ds : List Char),
      Nat.toDigitsCore 10 fuel n ds = Nat.toDigitsCore 10 fuel n [] ++ ds := by
  induction fuel with
  | zero => intro n ds; simp [Nat.toDigitsCore]
  | succ fuel ih =>
    intro n ds
    simp only [Nat.toDigitsCore]
    by_cases h : n / 10 = 0
    · simp [h]
    · rw [if_neg h, if_neg h, ih (n / 10) (Nat.digitChar (n % 10) :: ds),
        ih (n / 10) [Nat.digitChar (n % 10)], List.append_assoc]
      rfl

theorem digitVal_digitChar (d : Nat) (h : d < 10) :
    digitVal (Nat.digitChar d) = some d := by
  interval_cases d <;> decide

theorem parseDecFrom_append (xs ys : List Char) :
    ∀ a, parseDecFrom a (xs ++ ys) =
      (parseDecFrom a xs).bind fun b => parseDecFrom b ys := by
  induction xs with
  | nil => intro a; simp [parseDecFrom]
  | cons c cs ih =>
    intro a
    simp only [List.cons_append, parseDecFrom]
    cases digitVal c with
    | none => rfl
    | some d => exact ih _

theorem parseDecFrom_toDigitsCore (fuel : Nat) :
    ∀ n a, n ≤ fuel →
      parseDecFrom a (Nat.toDigitsCore 10 fuel n []) =
        some (a * 10 ^ (Nat.toDigitsCore 10 fuel n []).length + n) := by
  induction fuel with
  | zero =>
    intro n a h
    have hn : n = 0 := Nat.le_zero.mp h
    subst hn
    simp [Nat.toDigitsCore, parseDecFrom]
  | succ fuel ih =>
    intro n a h
    simp only [Nat.toDigitsCore]
    by_cases h0 : n / 10 = 0
    · have hn : n < 10 := by omega
      rw [if_pos h0]
      simp only [Nat.mod_eq_of_lt hn, parseDecFrom, digitVal_digitChar n hn,
        List.length_singleton]
      have harith : 10 * a + n = a * 10 ^ 1 + n := by ring
      rw [harith]
    · rw [if_neg h0,
        toDigitsCore_shift fuel (n / 10) [Nat.digitChar (n % 10)],
        parseDecFrom_append]
      have hle : n / 10 ≤ fuel := by omega
      rw [ih (n / 10) a hle]
      simp only [Option.some_bind, parseDecFrom,
        digitVal_digitChar (n % 10) (Nat.mod_lt n (by norm_num)),
        List.length_append, List.length_singleton]
      have hdm : 10 * (n / 10) + n % 10 = n := Nat.div_add_mod n 10
      set L := (Nat.toDigitsCore 10 fuel (n / 10) []).length with hL
      have hpow : (10 : Nat) ^ (L + 1) = 10 ^ L * 10 := pow_succ 10 L
      rw [hpow]
      set M := (10 : Nat) ^ L with hM
      have : 10 * (a * M + n / 10) + n % 10 =
          a * (M * 10) + (10 * (n / 10) + n % 10) := by ring
      rw [this, hdm]

theorem parseDecimal_repr (n : Nat) : parseDecimal (Nat.repr n) = some n := by
  show parseDecFrom 0 (Nat.toDigitsCore 10 (n + 1) n []) = some n
  rw [parseDecFrom_toDigitsCore (n + 1) n 0 (by omega)]
  simp

/-! Claim theorems. -/

theorem write_single_insert (env : Env) (col : Option Nat)
    (key value : Bytes) :
    Database.write noFaults env [DBOp.insert col key value] =
      (envModify (envEnsure env (colName col)) (colName col)
        (fun s => storePut s key (RkvValue.blob value)), Outcome.ok ()) := by
  simp [Database.write, writeOp_noFaults_insert]

/-- C1: Round-trip — executing `write` with a transaction containing
`Insert{c, k, v}` and then calling `get(c, k)` returns `Some(v)`,
byte-for-byte equal to the written `v`. -/
theorem insert_get_round_trip (env : Env) (col : Option Nat)
    (key value : Bytes) :
    (Database.write noFaults env [DBOp.insert col key value]).2 =
        Outcome.ok () ∧
      Database.get noFaults
          (Database.write noFaults env [DBOp.insert col key value]).1 col key =
        Outcome.ok (some value) := by
  rw [write_single_insert]
  refine ⟨rfl, ?_⟩
  rw [get_noFaults_eq]
  unfold storeGetIn
  rw [envModify_lookup_self, envEnsure_lookup_self]
  simp [storeGet_storePut_self, RkvValue.toBytes]

/-- C3: Substore naming — column `None` resolves to the unnamed default
substore; column `Some n` resolves to the substore named by the base-10
decimal string rendering of `n` (the name reads back as `n`); the substore is
created empty on first access if absent and left intact otherwise. -/
theorem substore_naming (env : Env) (n : Nat) :
    (Database.open_store noFaults env none =
        Except.ok (none, envEnsure env none) ∧
      envLookup (envEnsure env none) none =
        some ((envLookup env none).getD [])) ∧
    (Database.open_store noFaults env (some n) =
        Except.ok (some (Nat.repr n), envEnsure env (some (Nat.repr n))) ∧
      envLookup (envEnsure env (some (Nat.repr n))) (some (Nat.repr n)) =
        some ((envLookup env (some (Nat.repr n))).getD []) ∧
      parseDecimal (Nat.repr n) = some n) :=
  ⟨⟨rfl, envEnsure_lookup_self env none⟩,
    rfl, envEnsure_lookup_self env _, parseDecimal_repr n⟩

theorem insert_other_col_get (env : Env) (key value : Bytes)
    (col col' : Option Nat) (h : colName col' ≠ colName col) :
    Database.get noFaults
        (Database.write noFaults env [DBOp.insert col key value]).1 col' key =
      Database.get noFaults env col' key := by
  rw [write_single_insert, get_noFaults_eq, get_noFaults_eq]
  unfold storeGetIn
  rw [envModify_lookup_ne _ _ _ _ h, envEnsure_lookup_ne _ _ _ h]

/-- C4: Column isolation — writing `v` under `k` in column `Some 1` leaves
reads of `k` in column `Some 2` and in column `None` exactly as they were
(disjoint substores); starting from the empty database, both reads return
absence, not `v`. -/
theorem column_isolation (env : Env) (key value : Bytes) :
    (Database.get noFaults
        (Database.write noFaults env [DBOp.insert (some 1) key value]).1
        (some 2) key =
      Database.get noFaults env (some 2) key) ∧
    (Database.get noFaults
        (Database.write noFaults env [DBOp.insert (some 1) key value]).1
        none key =
      Database.get noFaults env none key) ∧
    Database.get noFaults
        (Database.write noFaults [] [DBOp.insert (some 1) key value]).1
        (some 2) key = Outcome.ok none ∧
    Database.get noFaults
        (Database.write noFaults [] [DBOp.insert (some 1) key value]).1
        none key = Outcome.ok none := by
  have h2 : colName (some 2) ≠ colName (some 1) := by decide
  have h0 : colName none ≠ colName (some 1) := by decide
  refine ⟨insert_other_col_get env key value _ _ h2,
    insert_other_col_get env key value _ _ h0, ?_, ?_⟩
  · rw [insert_other_col_get [] key value _ _ h2]; rfl
  · rw [insert_other_col_get [] key value _ _ h0]; rfl

theorem write_single_delete (env : Env) (col : Option Nat) (key : Bytes) :
    Database.write noFaults env [DBOp.delete col key] =
      (envModify (envEnsure env (colName col)) (colName col)
        (fun s => storeDel s key), Outcome.ok ()) := by
  simp [Database.write, writeOp_noFaults_delete]

/-- C7: Delete of an absent key — when `k` is not present in column `c`, a
transaction whose only operation is `Delete{c, k}` succeeds (no error), and a
subsequent `get(c, k)` returns absence. -/
theorem delete_absent_key (env : Env) (col : Option Nat) (key : Bytes)
    (habs : storeGetIn env (colName col) key = none) :
    (Database.write noFaults env [DBOp.delete col key]).2 = Outcome.ok () ∧
      Database.get noFaults
          (Database.write noFaults env [DBOp.delete col key]).1 col key =
        Outcome.ok none := by
  rw [write_single_delete]
  refine ⟨rfl, ?_⟩
  rw [get_noFaults_eq]
  unfold storeGetIn
  rw [envModify_lookup_self, envEnsure_lookup_self]
  simp [storeGet_storeDel_self]

theorem delete_absent_key_witness :
    storeGetIn [] (colName none) [0] = none ∧
      ((Database.write noFaults [] [DBOp.delete none [0]]).2 =
          Outcome.ok () ∧
        Database.get noFaults
            (Database.write noFaults [] [DBOp.delete none [0]]).1 none [0] =
          Outcome.ok none) :=
  ⟨rfl, delete_absent_key [] none [0] rfl⟩

/-- C8: Prefix-iterator stub fidelity — for every column, prefix and
database state (and every fault behaviour of the engine),
`iter_from_prefix` produces exactly what `iter` produces; the prefix
argument has no effect. -/
theorem iter_from_pfx_eq_iter (f : Faults) (env : Env) (col : Option Nat)
    (pfx : Bytes) :
    Database.iter_from_prefix f env col pfx = Database.iter f env col := rfl

/-- C9: get_by_prefix stub fidelity — it returns `None` for every column,
prefix, state and fault behaviour, and its result depends on none of them
(it neither reads nor modifies stored data). -/
theorem get_by_pfx_always_none (f f' : Faults) (env env' : Env)
    (col col' : Option Nat) (pfx pfx' : Bytes) :
    Database.get_by_prefix f env col pfx = none ∧
      Database.get_by_prefix f env col pfx =
        Database.get_by_prefix f' env' col' pfx' :=
  ⟨rfl, rfl⟩

/-- C10: the iterator has no per-element error channel — an exhausted cursor
ends the sequence (`Ok none`); an entry whose value is an engine error or is
missing makes `next` panic; an entry whose value does not decode as a typed
blob makes `next` panic; and a sound entry is yielded as its key and
unwrapped bytes together with the rest of the cursor — never an error
result, never a skip. -/
theorem iterator_next_panics_on_bad_entry (key : Bytes)
    (rest : List IterEntry) :
    DatabaseIterator.next [] = Outcome.ok none ∧
    (∀ es, DatabaseIterator.next ((key, Except.error es) :: rest) =
      Outcome.panic) ∧
    DatabaseIterator.next ((key, Except.ok none) :: rest) = Outcome.panic ∧
    (∀ v, DatabaseIterator.next ((key, Except.ok (some v)) :: rest) =
      match v.toBytes with
      | none => Outcome.panic
      | some b => Outcome.ok (some ((key, b), rest))) := by
  refine ⟨rfl, fun es => rfl, rfl, fun v => ?_⟩
  cases v <;> rfl

/-- C2: Partial application on failure — when all operations before `op`
succeed and `op` itself fails with error `e`, `write` on the whole
transaction returns exactly that error; the state keeps the
already-committed effects of the earlier operations (every subsequent read
sees exactly the state left after them), and the operations after `op` are
never attempted — the result does not depend on them.  The `pre ++ op ::
post` shape makes the caller-supplied order explicit, and each operation of
`pre` was committed by its own `writeOp` step. -/
theorem write_partial_application_on_failure (f : Faults) (env : Env)
    (pre post : List DBOp) (op : DBOp) (e : String) (col : Option Nat)
    (key : Bytes)
    (hpre : (Database.write f env pre).2 = Outcome.ok ())
    (hfail : (writeOp f (Database.write f env pre).1 op).2 = Outcome.err e) :
    Database.write f env (pre ++ op :: post) =
        ((writeOp f (Database.write f env pre).1 op).1, Outcome.err e) ∧
      Database.get noFaults
          (writeOp f (Database.write f env pre).1 op).1 col key =
        Database.get noFaults (Database.write f env pre).1 col key := by
  refine ⟨?_, writeOp_err_get f _ op e hfail col key⟩
  rw [write_append f pre (op :: post) env hpre]
  simp only [Database.write]
  cases hop : writeOp f (Database.write f env pre).1 op with
  | mk env1 res =>
    rw [hop] at hfail
    cases res with
    | ok a => simp at hfail
    | err e' =>
      simp only [Outcome.err.injEq] at hfail
      subst hfail
      rfl
    | panic => simp at hfail

/-- Fault oracle that fails the engine put on key `[9]` and nothing else. -/
def putFaulty : Faults :=
  ⟨fun _ => none, none, fun _ _ => none, none,
   fun _ k => if k = [9] then some "boom" else none,
   fun _ _ => none, none, fun _ => none⟩

theorem write_partial_application_on_failure_witness :
    (Database.write putFaulty [] [DBOp.insert none [1] [2]]).2 =
        Outcome.ok () ∧
      Database.write putFaulty []
          ([DBOp.insert none [1] [2]] ++
            DBOp.insert none [9] [3] :: [DBOp.insert none [4] [5]]) =
        ((writeOp putFaulty
            (Database.write putFaulty [] [DBOp.insert none [1] [2]]).1
            (DBOp.insert none [9] [3])).1, Outcome.err "boom") ∧
      Database.get noFaults
          (writeOp putFaulty
            (Database.write putFaulty [] [DBOp.insert none [1] [2]]).1
            (DBOp.insert none [9] [3])).1 none [1] =
        Database.get noFaults
          (Database.write putFaulty [] [DBOp.insert none [1] [2]]).1
          none [1] :=
  ⟨by decide,
    (write_partial_application_on_failure putFaulty []
      [DBOp.insert none [1] [2]] [DBOp.insert none [4] [5]]
      (DBOp.insert none [9] [3]) "boom" none [1] (by decide) (by decide)).1,
    (write_partial_application_on_failure putFaulty []
      [DBOp.insert none [1] [2]] [DBOp.insert none [4] [5]]
      (DBOp.insert none [9] [3]) "boom" none [1] (by decide) (by decide)).2⟩

/-- Fault oracle that fails resolution of the substore named "1" and nothing
else. -/
def openFaulty : Faults :=
  ⟨fun n => if n = some (Nat.repr 1) then some "boom" else none, none,
   fun _ _ => none, none, fun _ _ => none, fun _ _ => none, none,
   fun _ => none⟩

/-- C5 counterexample: in `iter`, a substore-resolution failure is not
propagated to the caller as an error result — the adapter unwraps it and
panics. -/
theorem iter_resolution_failure_no_err_result :
    Database.iter openFaulty [] (some 1) = Outcome.panic ∧
      Outcome.isErr (Database.iter openFaulty [] (some 1)) = false :=
  ⟨rfl, rfl⟩

/-- C5 amended: in `get` and `write`, substore-resolution and engine
read/put/delete/commit failures are returned to the immediate caller as
exactly the error the failing call produced, with no retry; but in
`iter`/`iter_from_prefix` (and on writer acquisition inside `write`) the
failure is hit by a bare `unwrap()` and panics instead of being returned as
an error result. -/
theorem error_propagation_policy (f : Faults) (env : Env) (col : Option Nat)
    (key value pfx : Bytes) (e : String) (op : DBOp) (rest : List DBOp) :
    (f.openStore (colName col) = some e →
      Database.get f env col key = Outcome.err e) ∧
    (f.openStore (colName col) = none → f.readerOpen = none →
      f.readGet (colName col) key = some e →
      Database.get f env col key = Outcome.err e) ∧
    ((writeOp f env op).2 = Outcome.err e →
      Database.write f env (op :: rest) =
        ((writeOp f env op).1, Outcome.err e)) ∧
    (f.openStore (colName col) = none → f.writerOpen = some e →
      (writeOp f env (DBOp.insert col key value)).2 = Outcome.panic) ∧
    (f.openStore (colName col) = some e →
      Database.iter f env col = Outcome.panic) ∧
    Database.iter_from_prefix f env col pfx = Database.iter f env col := by
  refine ⟨?_, ?_, ?_, ?_, ?_, rfl⟩
  · intro h
    unfold Database.get
    rw [open_store_eq]
    unfold Rkv.open_or_create
    simp [h]
  · intro h1 h2 h3
    unfold Database.get
    rw [open_store_eq]
    unfold Rkv.open_or_create Reader.get
    simp [h1, h2, h3]
  · intro h
    simp only [Database.write]
    cases hop : writeOp f env op with
    | mk env1 res =>
      rw [hop] at h
      cases res with
      | ok a => simp at h
      | err e' =>
        simp only [Outcome.err.injEq] at h
        subst h
        rfl
      | panic => simp at h
  · intro h1 h2
    simp only [writeOp]
    rw [open_store_eq]
    unfold Rkv.open_or_create
    simp [h1, h2]
  · intro h
    unfold Database.iter
    rw [open_store_eq]
    unfold Rkv.open_or_create
    simp [h]

theorem error_propagation_policy_witness :
    Database.get openFaulty [] (some 1) [0] = Outcome.err "boom" ∧
      Database.iter openFaulty [] (some 1) = Outcome.panic :=
  ⟨(error_propagation_policy openFaulty [] (some 1) [0] [] [] "boom"
      (DBOp.insert none [] []) []).1 (by decide),
    (error_propagation_policy openFaulty [] (some 1) [0] [] [] "boom"
      (DBOp.insert none [] []) []).2.2.2.2.1 (by decide)⟩

/-- Environment whose substore named "1" holds, under key `[0]`, a value that
does not decode back into raw bytes. -/
def corruptEnv : Env := [(some (Nat.repr 1), [([0], RkvValue.u64 7)])]

/-- C6 counterexample: when the stored value cannot be decoded from its
typed-blob form, `get` does not surface the failure as an engine-level error
result — it unwraps and panics. -/
theorem get_decode_failure_no_err_result :
    Database.get noFaults corruptEnv (some 1) [0] = Outcome.panic ∧
      Outcome.isErr (Database.get noFaults corruptEnv (some 1) [0]) =
        false := by
  decide

/-- C6 amended: if the value stored under the key does not decode back into
raw bytes, `get` panics — aborting the calling context — rather than
returning an engine-level error; the failure is still never silently
swallowed or turned into a non-error outcome. -/
theorem get_decode_failure_panics (env : Env) (col : Option Nat) (key : Bytes)
    (v : RkvValue) (hst : storeGetIn env (colName col) key = some v)
    (hdec : v.toBytes = none) :
    Database.get noFaults env col key = Outcome.panic := by
  rw [get_noFaults_eq, hst]
  simp [hdec]

theorem get_decode_failure_panics_witness :
    storeGetIn corruptEnv (colName (some 1)) [0] = some (RkvValue.u64 7) ∧
      (RkvValue.u64 7).toBytes = none ∧
      Database.get noFaults corruptEnv (some 1) [0] = Outcome.panic :=
  ⟨by decide, rfl,
    get_decode_failure_panics corruptEnv (some 1) [0] (RkvValue.u64 7)
      (by decide) rfl⟩
